import Mathlib

/-!
Shallow embedding of the LiDAR scan visualizer
(src/lidarplot,wsl.1/src/lidarplot.cpp).

Modelling conventions:
- C++ floats are modelled as rationals. The trigonometric library calls
  cos/sin are abstracted as an arbitrary pair of rational functions (a Trig
  record); claims that fix the angle to 0 assume cos 0 = 1 and sin 0 = 0,
  which holds exactly for IEEE cosf/sinf as well as for real cos/sin.
- static_cast from float to int truncates toward zero, modelled by ratTrunc.
- Division of a nonzero float by zero yields an IEEE infinity (0/0 yields
  NaN); converting either to int is undefined behaviour that on the x86-64
  target saturates to INT_MIN, a negative value. derivedCount models that
  case by the INT_MIN sentinel, so the count fallback of line 42 fires.
- std::vector subscripting past the end is undefined behaviour; reading
  ranges is modelled with an Option lookup whose none case is the
  SampleResult.oob outcome.
- The per-scan rendering (scanCallback, lines 39-102) is modelled as the
  list of drawing commands it issues (renderOps) followed by the sink
  events it issues (display, optional video write).
-/

/-- A float value: either NaN or an actual (rational) value. All IEEE
comparisons against NaN are false, and isnan detects it. -/
inductive FVal where
  | nan : FVal
  | val : ℚ → FVal
deriving DecidableEq

def FVal.isnan : FVal → Bool
  | .nan => true
  | .val _ => false

/-- IEEE comparison r < b for a float r and a plain rational bound b:
false when r is NaN. -/
def FVal.ltQ : FVal → ℚ → Bool
  | .nan, _ => false
  | .val q, b => decide (q < b)

/-- IEEE comparison r > b: false when r is NaN. -/
def FVal.gtQ : FVal → ℚ → Bool
  | .nan, _ => false
  | .val q, b => decide (b < q)

/-- The rational payload of a non-NaN float (0 for NaN; only used on
values that passed the isnan test). -/
def FVal.toQ : FVal → ℚ
  | .nan => 0
  | .val q => q

/-- sensor_msgs::msg::LaserScan, restricted to the fields scanCallback
reads. -/
structure ScanMessage where
  angle_min : ℚ
  angle_max : ℚ
  angle_increment : ℚ
  range_min : ℚ
  range_max : ℚ
  time_increment : ℚ
  scan_time : ℚ
  ranges : List FVal
  frame_id : String

/-- The view configuration fixed in the constructor (lines 19-23):
img_size_ = 500 pixels, meter_per_pixel_ = 0.02. -/
structure ViewConfig where
  img_size : Int
  meter_per_pixel : ℚ

/-- center_ = cv::Point(img_size_ / 2, img_size_ / 2) (line 23), with C++
int division. -/
def center (vc : ViewConfig) : Int × Int :=
  (vc.img_size / 2, vc.img_size / 2)

/-- The configuration the constructor installs: 500 px, 0.02 m per px. -/
def defaultView : ViewConfig :=
  ⟨500, 2 / 100⟩

/-- The cos/sin library functions, abstracted. -/
structure Trig where
  cos : ℚ → ℚ
  sin : ℚ → ℚ

/-- A concrete Trig agreeing with real cos/sin at angle 0 (the only angle
at which concrete claims evaluate the trig). -/
def trigAtZero : Trig :=
  ⟨fun _ => 1, fun _ => 0⟩

/-- static_cast to int of a finite float: truncation toward zero. -/
def ratTrunc (q : ℚ) : Int :=
  if 0 ≤ q then Int.floor q else Int.ceil q

/-- INT_MIN, the value a float-to-int conversion of ±infinity or NaN
produces on the x86-64 target (cvttss2si saturation). -/
def intMinSentinel : Int := -2147483648

/-- Line 41: int count = static_cast of scan_time / time_increment.
When time_increment = 0 the IEEE quotient is an infinity or NaN and the
conversion saturates to INT_MIN. -/
def derivedCount (msg : ScanMessage) : Int :=
  if msg.time_increment = 0 then intMinSentinel
  else ratTrunc (msg.scan_time / msg.time_increment)

/-- Lines 41-43: the loop bound; falls back to ranges.size() when the
derived count is ≤ 0. -/
def sampleCount (msg : ScanMessage) : Int :=
  if derivedCount msg ≤ 0 then (msg.ranges.length : Int) else derivedCount msg

/-- The loop bound as a natural number (the for loop runs i = 0, ...,
count-1; sampleCount is never negative). -/
def sampleCountN (msg : ScanMessage) : Nat :=
  (sampleCount msg).toNat

/-- Line 65: angle = angle_min + i * angle_increment. -/
def sampleAngle (msg : ScanMessage) (i : Nat) : ℚ :=
  msg.angle_min + (i : ℚ) * msg.angle_increment

/-- Line 72: the validity test
range < range_min || range > range_max || isnan(range). True means the
sample is rejected (continue). -/
def rejectRange (msg : ScanMessage) (r : FVal) : Bool :=
  r.ltQ msg.range_min || r.gtQ msg.range_max || r.isnan

/-- Lines 76-86: polar to Cartesian, 90 degree clockwise rotation
(x, y) to (y, -x), then metric to pixel with the y axis inverted and the
float-to-int truncation. -/
def pixelOf (tg : Trig) (vc : ViewConfig) (angle range : ℚ) : Int × Int :=
  let x := range * tg.cos angle
  let y := range * tg.sin angle
  let x_rot := y
  let y_rot := -x
  (ratTrunc (((center vc).1 : ℚ) + x_rot / vc.meter_per_pixel),
   ratTrunc (((center vc).2 : ℚ) - y_rot / vc.meter_per_pixel))

/-- Line 89: the rasterization guard
px >= 0 && px < img_size_ && py >= 0 && py < img_size_. -/
def inBounds (vc : ViewConfig) (p : Int × Int) : Bool :=
  decide (0 ≤ p.1) && decide (p.1 < vc.img_size) &&
  decide (0 ≤ p.2) && decide (p.2 < vc.img_size)

/-- Outcome of one iteration of the loop of lines 63-92 for index i. -/
inductive SampleResult where
  | oob : SampleResult
  | rejected : SampleResult
  | clipped : Int × Int → SampleResult
  | plotted : Int × Int → SampleResult
deriving DecidableEq

/-- One loop iteration (lines 63-91): read ranges[i] (out of bounds when
i is past the end), validate the range, transform, bounds-check. -/
def processSample (tg : Trig) (vc : ViewConfig) (msg : ScanMessage)
    (i : Nat) : SampleResult :=
  match msg.ranges[i]? with
  | none => .oob
  | some r =>
    if rejectRange msg r then .rejected
    else
      let p := pixelOf tg vc (sampleAngle msg i) r.toQ
      if inBounds vc p then .plotted p else .clipped p

/-- The pixel drawn for sample i, if any. -/
def sampleContribution (tg : Trig) (vc : ViewConfig) (msg : ScanMessage)
    (i : Nat) : Option (Int × Int) :=
  match processSample tg vc msg i with
  | .plotted p => some p
  | _ => none

/-- All pixels at which the loop draws a red disc, in loop order. -/
def plottedPixels (tg : Trig) (vc : ViewConfig) (msg : ScanMessage) :
    List (Int × Int) :=
  (List.range (sampleCountN msg)).filterMap (sampleContribution tg vc msg)

/-- A BGR color, as in cv::Scalar(b, g, r). -/
abbrev Color := Int × Int × Int

def colWhite : Color := (255, 255, 255)
def colBlack : Color := (0, 0, 0)
def colRed : Color := (0, 0, 255)

/-- A drawing command issued on the frame image. -/
inductive DrawOp where
  | fill : Color → DrawOp
  | line : Int × Int → Int × Int → Color → Int → DrawOp
  | circle : Int × Int → Int → Color → Int → DrawOp
deriving DecidableEq

/-- Lines 52-92 as the ordered list of drawing commands of one frame:
fresh white background fill (line 52), the two fixed crosshair segments
(lines 55-60, black, thickness 2), then one filled red disc of radius 2
per plotted sample (line 90). -/
def renderOps (tg : Trig) (vc : ViewConfig) (msg : ScanMessage) :
    List DrawOp :=
  DrawOp.fill colWhite ::
  DrawOp.line ((center vc).1 - 5, (center vc).2)
              ((center vc).1 + 5, (center vc).2) colBlack 2 ::
  DrawOp.line ((center vc).1, (center vc).2 - 5)
              ((center vc).1, (center vc).2 + 5) colBlack 2 ::
  (plottedPixels tg vc msg).map (fun p => DrawOp.circle p 2 colRed (-1))

/-- An event at the frame sink: display refresh (line 95) or video frame
append (line 100). -/
inductive SinkEvent where
  | disp : SinkEvent
  | write : SinkEvent
deriving DecidableEq

/-- Lines 95-101: every frame is shown; a frame is written exactly when
the writer is open. The open flag is fixed at construction (lines 29-35)
and never re-tested or re-opened inside the callback. -/
def sinkEvents (opened : Bool) : List SinkEvent :=
  SinkEvent.disp :: (if opened then [SinkEvent.write] else [])

/-- Lines 33-35: exactly one warning when the writer failed to open, at
construction time only. -/
def startupWarnings (opened : Bool) : Nat :=
  if opened then 0 else 1

/-- A whole run: per arriving message, the drawing commands of its frame
and its sink events, in arrival order. -/
def runEvents (tg : Trig) (vc : ViewConfig) (opened : Bool) :
    List ScanMessage → List (List DrawOp × List SinkEvent)
  | [] => []
  | m :: ms => (renderOps tg vc m, sinkEvents opened) :: runEvents tg vc opened ms

def countWrites (l : List SinkEvent) : Nat :=
  l.countP (fun e => decide (e = SinkEvent.write))

def countDisplays (l : List SinkEvent) : Nat :=
  l.countP (fun e => decide (e = SinkEvent.disp))

/-- ScanMessage with the angle_max field replaced (all other fields
kept), used to state that the pipeline never reads angle_max. -/
def setAngleMax (msg : ScanMessage) (m : ℚ) : ScanMessage :=
  ⟨msg.angle_min, m, msg.angle_increment, msg.range_min, msg.range_max,
   msg.time_increment, msg.scan_time, msg.ranges, msg.frame_id⟩

/-- A message whose derived count (scan_time / time_increment = 5) exceeds
the true length of ranges (2): the loop then reads past the end. -/
def msgC1 : ScanMessage :=
  ⟨0, 0, 0, 1 / 10, 10, 1, 5, [FVal.val 1, FVal.val 1], "laser"⟩

/-- A message with time_increment = 0 (division-by-zero source for the
derived count). -/
def msgTi0 : ScanMessage :=
  ⟨0, 0, 0, 0, 10, 0, 1, [FVal.val 1, FVal.val 2, FVal.val 3], "laser"⟩

/-- A message with scan_time = 0 and time_increment = 1: the derived
count is 0, so the renderer must fall back to the ranges length. -/
def msgFb : ScanMessage :=
  ⟨0, 0, 0, 0, 10, 1, 0, [FVal.val 1, FVal.val 2, FVal.val 3], "laser"⟩

/-- A message holding one forward (angle 0) sample of range 1 m, within
the declared [0.1, 10] m sensor range. -/
def msgFwd : ScanMessage :=
  ⟨0, 0, 0, 1 / 10, 10, 0, 0, [FVal.val 1], "laser"⟩

/-- A message holding a below-minimum range, a NaN, an above-maximum
range and one valid range. -/
def msgInv : ScanMessage :=
  ⟨0, 0, 0, 1 / 10, 10, 0, 0,
   [FVal.val (1 / 20), FVal.nan, FVal.val 20, FVal.val 1], "laser"⟩

/-- A message whose single sample lands exactly on the last image row
(py = 499 with the default view): range 4.98 m at angle 0. -/
def msgEdge : ScanMessage :=
  ⟨0, 0, 0, 1 / 10, 10, 1, 0, [FVal.val (249 / 50)], "laser"⟩

/-- A message whose sample angles run far past angle_max: angle_max = 1
but angle_increment = 100 rad over 3 samples. -/
def msgAng : ScanMessage :=
  ⟨0, 1, 100, 0, 10, 0, 0, [FVal.val 1, FVal.val 1, FVal.val 1], "laser"⟩

/-! ## Helper lemmas -/

theorem ratTrunc_intCast (n : ℤ) : ratTrunc (n : ℚ) = n := by
  unfold ratTrunc
  split
  · exact Int.floor_intCast n
  · exact Int.ceil_intCast n

theorem floor_le_ratTrunc (q : ℚ) : ⌊q⌋ ≤ ratTrunc q := by
  unfold ratTrunc
  split
  · exact le_refl _
  · exact Int.floor_le_ceil q

theorem le_ratTrunc_add_nonneg (c : ℤ) (e : ℚ) (he : 0 ≤ e) :
    c ≤ ratTrunc ((c : ℚ) + e) := by
  have h1 : (c : ℤ) ≤ ⌊(c : ℚ) + e⌋ := by
    calc (c : ℤ) = ⌊(c : ℚ)⌋ := (Int.floor_intCast c).symm
    _ ≤ ⌊(c : ℚ) + e⌋ := Int.floor_mono (le_add_of_nonneg_right he)
  exact le_trans h1 (floor_le_ratTrunc _)

theorem lt_ratTrunc_add_one_le (c : ℤ) (e : ℚ) (he : 1 ≤ e) :
    c < ratTrunc ((c : ℚ) + e) := by
  have h1 : c + 1 ≤ ⌊(c : ℚ) + e⌋ := by
    have h2 : ((c + 1 : ℤ) : ℚ) ≤ (c : ℚ) + e := by
      push_cast
      linarith
    calc c + 1 = ⌊((c + 1 : ℤ) : ℚ)⌋ := (Int.floor_intCast _).symm
    _ ≤ ⌊(c : ℚ) + e⌋ := Int.floor_mono h2
  have h3 := le_trans h1 (floor_le_ratTrunc ((c : ℚ) + e))
  omega

theorem filterMap_eq_of_contribution_none {α : Type} (f : Nat → Option α)
    (i : Nat) (h : f i = none) (l : List Nat) :
    l.filterMap f = (l.filter (fun j => decide (j ≠ i))).filterMap f := by
  induction l with
  | nil => rfl
  | cons a l ih =>
    by_cases ha : a = i
    · subst ha
      simp [List.filterMap_cons, List.filter_cons, h, ih]
    · simp [List.filterMap_cons, List.filter_cons, ha, ih]

theorem take_three_cons {α : Type} (a b c : α) (l : List α) :
    (a :: b :: c :: l).take 3 = [a, b, c] := rfl

theorem drop_three_cons {α : Type} (a b c : α) (l : List α) :
    (a :: b :: c :: l).drop 3 = l := rfl

/-! ## Claims -/

/-- C1: the claim says the loop over sample indices is clamped to
min(count, len(ranges)) so that no index past the end of ranges is ever
read. The code has no such clamp: with scan_time = 5 and
time_increment = 1 the derived count is 5, the fallback of line 42 does
not fire, and the loop of line 63 reads ranges[2], ranges[3], ranges[4]
of a 2-element vector — an out-of-bounds access (SampleResult.oob). -/
theorem unclamped_count_reads_past_ranges :
    sampleCountN msgC1 = 5 ∧ msgC1.ranges.length = 2 ∧
    processSample trigAtZero defaultView msgC1 2 = SampleResult.oob := by
  refine ⟨?_, ?_, ?_⟩
  · with_unfolding_all rfl
  · rfl
  · with_unfolding_all rfl

/-- C2: when time_increment = 0 the count computation of line 41 cannot
crash (IEEE float division by zero yields an infinity or NaN; the int
conversion saturates to a negative value, modelled by the INT_MIN
sentinel), and the fallback of lines 42-43 makes the loop bound equal to
the length of ranges. -/
theorem time_increment_zero_falls_back_to_length (msg : ScanMessage)
    (h : msg.time_increment = 0) :
    sampleCount msg = msg.ranges.length ∧
    sampleCountN msg = msg.ranges.length := by
  have hd : derivedCount msg = intMinSentinel := by
    unfold derivedCount
    simp [h]
  have hle : derivedCount msg ≤ 0 := by
    rw [hd]
    unfold intMinSentinel
    omega
  have h1 : sampleCount msg = msg.ranges.length := by
    unfold sampleCount
    simp [hle]
  refine ⟨h1, ?_⟩
  unfold sampleCountN
  rw [h1]
  exact Int.toNat_natCast _

/-- C2 witness: the concrete message msgTi0 has time_increment = 0 and
3 ranges; its loop bound is 3. -/
theorem time_increment_zero_falls_back_to_length_witness :
    sampleCount msgTi0 = msgTi0.ranges.length ∧
    sampleCountN msgTi0 = msgTi0.ranges.length :=
  time_increment_zero_falls_back_to_length msgTi0 (by with_unfolding_all rfl)

/-- C4: the loop bound is the truncation toward zero of
scan_time / time_increment when that is positive, and the length of
ranges whenever it is ≤ 0; in particular scan_time = 0 with
time_increment = 1 processes exactly length-many samples. -/
theorem sample_count_policy (msg : ScanMessage) :
    (msg.time_increment ≠ 0 →
      ((0 < ratTrunc (msg.scan_time / msg.time_increment) →
         sampleCount msg = ratTrunc (msg.scan_time / msg.time_increment)) ∧
       (ratTrunc (msg.scan_time / msg.time_increment) ≤ 0 →
         sampleCount msg = msg.ranges.length))) ∧
    (msg.scan_time = 0 → msg.time_increment = 1 →
      sampleCountN msg = msg.ranges.length) := by
  constructor
  · intro h
    have hd : derivedCount msg = ratTrunc (msg.scan_time / msg.time_increment) := by
      unfold derivedCount
      simp [h]
    constructor
    · intro hpos
      unfold sampleCount
      rw [hd, if_neg (by omega)]
    · intro hle
      unfold sampleCount
      rw [hd, if_pos hle]
  · intro h0 h1
    have hd : derivedCount msg = 0 := by
      unfold derivedCount
      rw [if_neg (by rw [h1]; norm_num), h0, h1]
      norm_num [ratTrunc]
    have h2 : sampleCount msg = msg.ranges.length := by
      unfold sampleCount
      rw [hd]
      simp
    unfold sampleCountN
    rw [h2]
    exact Int.toNat_natCast _

/-- C4 witness: msgC1 has derived count 5 > 0 and uses it; msgFb has
scan_time = 0, time_increment = 1 and processes its 3 ranges. -/
theorem sample_count_policy_witness :
    sampleCount msgC1 = ratTrunc (msgC1.scan_time / msgC1.time_increment) ∧
    sampleCountN msgFb = msgFb.ranges.length :=
  ⟨((sample_count_policy msgC1).1 (by with_unfolding_all decide)).1
      (by with_unfolding_all decide),
   (sample_count_policy msgFb).2 (by with_unfolding_all rfl)
      (by with_unfolding_all rfl)⟩

/-- C5: a sample whose range is below range_min, above range_max, or NaN
is rejected by the test of line 72: no point is plotted for it, it
contributes nothing to the frame, and the remaining samples are processed
unchanged (the continue of line 73 never aborts the frame). -/
theorem invalid_range_sample_rejected (tg : Trig) (vc : ViewConfig)
    (msg : ScanMessage) (i : Nat) (r : FVal)
    (hget : msg.ranges[i]? = some r)
    (hbad : r = FVal.nan ∨
      ∃ q, r = FVal.val q ∧ (q < msg.range_min ∨ msg.range_max < q)) :
    processSample tg vc msg i = SampleResult.rejected ∧
    sampleContribution tg vc msg i = none ∧
    plottedPixels tg vc msg =
      ((List.range (sampleCountN msg)).filter (fun j => decide (j ≠ i))).filterMap
        (sampleContribution tg vc msg) := by
  have hrej : rejectRange msg r = true := by
    rcases hbad with h | ⟨q, hq, hlt⟩
    · subst h
      simp [rejectRange, FVal.isnan]
    · subst hq
      rcases hlt with hlt | hlt
      · simp [rejectRange, FVal.ltQ, hlt]
      · simp [rejectRange, FVal.gtQ, hlt]
  have h1 : processSample tg vc msg i = SampleResult.rejected := by
    unfold processSample
    rw [hget]
    simp [hrej]
  have h2 : sampleContribution tg vc msg i = none := by
    unfold sampleContribution
    rw [h1]
  refine ⟨h1, h2, ?_⟩
  unfold plottedPixels
  exact filterMap_eq_of_contribution_none (sampleContribution tg vc msg) i h2 _

/-- C5 witness: in msgInv the sample at index 1 is NaN; it is rejected,
contributes no pixel, and the frame is the one of the other indices. -/
theorem invalid_range_sample_rejected_witness :
    processSample trigAtZero defaultView msgInv 1 = SampleResult.rejected ∧
    sampleContribution trigAtZero defaultView msgInv 1 = none ∧
    plottedPixels trigAtZero defaultView msgInv =
      ((List.range (sampleCountN msgInv)).filter (fun j => decide (j ≠ 1))).filterMap
        (sampleContribution trigAtZero defaultView msgInv) :=
  invalid_range_sample_rejected trigAtZero defaultView msgInv 1 FVal.nan
    (by with_unfolding_all rfl) (Or.inl rfl)

/-- C6: an accepted sample is rasterized exactly when its pixel lies in
[0, image_size) on both axes (the guard of line 89); a coordinate at
image_size - 1 passes the guard while image_size or -1 on either axis
fails it, and a failing pixel is silently clipped, not an error. -/
theorem rasterization_clips_to_image (tg : Trig) (vc : ViewConfig)
    (msg : ScanMessage) (i : Nat) (q : ℚ) (a : Int)
    (hget : msg.ranges[i]? = some (FVal.val q))
    (hacc : rejectRange msg (FVal.val q) = false)
    (ha0 : 0 ≤ a) (ha1 : a < vc.img_size) :
    (processSample tg vc msg i =
        SampleResult.plotted (pixelOf tg vc (sampleAngle msg i) q) ↔
      inBounds vc (pixelOf tg vc (sampleAngle msg i) q) = true) ∧
    (inBounds vc (pixelOf tg vc (sampleAngle msg i) q) = false →
      processSample tg vc msg i =
        SampleResult.clipped (pixelOf tg vc (sampleAngle msg i) q)) ∧
    (inBounds vc (pixelOf tg vc (sampleAngle msg i) q) = true ↔
      (0 ≤ (pixelOf tg vc (sampleAngle msg i) q).1 ∧
       (pixelOf tg vc (sampleAngle msg i) q).1 < vc.img_size ∧
       0 ≤ (pixelOf tg vc (sampleAngle msg i) q).2 ∧
       (pixelOf tg vc (sampleAngle msg i) q).2 < vc.img_size)) ∧
    inBounds vc (vc.img_size - 1, a) = true ∧
    inBounds vc (a, vc.img_size - 1) = true ∧
    inBounds vc (vc.img_size, a) = false ∧
    inBounds vc (a, vc.img_size) = false ∧
    inBounds vc (-1, a) = false ∧
    inBounds vc (a, -1) = false := by
  have hps : processSample tg vc msg i =
      if inBounds vc (pixelOf tg vc (sampleAngle msg i) q) then
        SampleResult.plotted (pixelOf tg vc (sampleAngle msg i) q)
      else SampleResult.clipped (pixelOf tg vc (sampleAngle msg i) q) := by
    unfold processSample
    rw [hget]
    simp [hacc, FVal.toQ]
  refine ⟨?_, ?_, ?_, ?_, ?_, ?_, ?_, ?_, ?_⟩
  · rw [hps]
    cases hb : inBounds vc (pixelOf tg vc (sampleAngle msg i) q) <;> simp [hb]
  · intro hb
    rw [hps, hb]
    simp
  · simp [inBounds, and_assoc]
  · simp only [inBounds, Bool.and_eq_true, decide_eq_true_eq]
    omega
  · simp only [inBounds, Bool.and_eq_true, decide_eq_true_eq]
    omega
  · simp only [inBounds]
    simp only [Bool.and_eq_false_iff, decide_eq_false_iff_not]
    omega
  · simp only [inBounds]
    simp only [Bool.and_eq_false_iff, decide_eq_false_iff_not]
    omega
  · simp only [inBounds]
    simp only [Bool.and_eq_false_iff, decide_eq_false_iff_not]
    omega
  · simp only [inBounds]
    simp only [Bool.and_eq_false_iff, decide_eq_false_iff_not]
    omega

/-- C6 witness: msgEdge's single sample (range 4.98 m, angle 0) lands at
pixel (250, 499), exactly the last row of the default 500-px image, and
is drawn; the boundary coordinates behave as claimed. -/
theorem rasterization_clips_to_image_witness :
    (processSample trigAtZero defaultView msgEdge 0 =
        SampleResult.plotted (pixelOf trigAtZero defaultView (sampleAngle msgEdge 0) (249 / 50)) ↔
      inBounds defaultView (pixelOf trigAtZero defaultView (sampleAngle msgEdge 0) (249 / 50)) = true) ∧
    (inBounds defaultView (pixelOf trigAtZero defaultView (sampleAngle msgEdge 0) (249 / 50)) = false →
      processSample trigAtZero defaultView msgEdge 0 =
        SampleResult.clipped (pixelOf trigAtZero defaultView (sampleAngle msgEdge 0) (249 / 50))) ∧
    (inBounds defaultView (pixelOf trigAtZero defaultView (sampleAngle msgEdge 0) (249 / 50)) = true ↔
      (0 ≤ (pixelOf trigAtZero defaultView (sampleAngle msgEdge 0) (249 / 50)).1 ∧
       (pixelOf trigAtZero defaultView (sampleAngle msgEdge 0) (249 / 50)).1 < defaultView.img_size ∧
       0 ≤ (pixelOf trigAtZero defaultView (sampleAngle msgEdge 0) (249 / 50)).2 ∧
       (pixelOf trigAtZero defaultView (sampleAngle msgEdge 0) (249 / 50)).2 < defaultView.img_size)) ∧
    inBounds defaultView (defaultView.img_size - 1, 0) = true ∧
    inBounds defaultView (0, defaultView.img_size - 1) = true ∧
    inBounds defaultView (defaultView.img_size, 0) = false ∧
    inBounds defaultView (0, defaultView.img_size) = false ∧
    inBounds defaultView (-1, 0) = false ∧
    inBounds defaultView (0, -1) = false :=
  rasterization_clips_to_image trigAtZero defaultView msgEdge 0 (249 / 50) 0
    (by with_unfolding_all rfl) (by with_unfolding_all rfl)
    (by decide) (by decide)

/-- C3 counterexample: the claim says an accepted sample at angle 0 with
positive range lands strictly above image center (py < center.y). In the
code the 90 degree clockwise rotation (x, y) to (y, -x) followed by
py = center.y - y_rot / meter_per_pixel sends the forward sample of
msgFwd (range 1 m) to pixel (250, 300): 50 rows BELOW the center row
250, so py < center.y is false. -/
theorem forward_sample_not_above_center :
    rejectRange msgFwd (FVal.val 1) = false ∧
    processSample trigAtZero defaultView msgFwd 0 =
      SampleResult.plotted (250, 300) ∧
    ¬((pixelOf trigAtZero defaultView 0 1).2 < (center defaultView).2) := by
  refine ⟨?_, ?_, ?_⟩
  · with_unfolding_all rfl
  · with_unfolding_all rfl
  · with_unfolding_all decide

/-- C3 (amended): the fixed 90 degree clockwise rotation orients
sensor-forward as image-DOWN: every sample with angle 0 and positive
range maps to a pixel on the center column with py on or below the
center row, strictly below it as soon as range ≥ meter_per_pixel. -/
theorem forward_maps_to_image_down (tg : Trig) (vc : ViewConfig) (q : ℚ)
    (h1 : tg.cos 0 = 1) (h2 : tg.sin 0 = 0) (hq : 0 < q)
    (hm : 0 < vc.meter_per_pixel) :
    (center vc).2 ≤ (pixelOf tg vc 0 q).2 ∧
    (vc.meter_per_pixel ≤ q → (center vc).2 < (pixelOf tg vc 0 q).2) ∧
    (pixelOf tg vc 0 q).1 = (center vc).1 := by
  have key : pixelOf tg vc 0 q =
      ((center vc).1,
       ratTrunc (((center vc).2 : ℚ) + q / vc.meter_per_pixel)) := by
    simp only [pixelOf, h1, h2, mul_zero, mul_one, zero_div, add_zero,
      neg_div, sub_neg_eq_add, ratTrunc_intCast]
  rw [key]
  refine ⟨?_, ?_, rfl⟩
  · exact le_ratTrunc_add_nonneg _ _ (le_of_lt (div_pos hq hm))
  · intro hle
    exact lt_ratTrunc_add_one_le _ _ ((le_div_iff₀ hm).mpr (by linarith))

/-- C3 (amended) witness: at the default view a forward 1 m sample maps
to the center column, strictly below the center row. -/
theorem forward_maps_to_image_down_witness :
    (center defaultView).2 ≤ (pixelOf trigAtZero defaultView 0 1).2 ∧
    (defaultView.meter_per_pixel ≤ 1 →
      (center defaultView).2 < (pixelOf trigAtZero defaultView 0 1).2) ∧
    (pixelOf trigAtZero defaultView 0 1).1 = (center defaultView).1 :=
  forward_maps_to_image_down trigAtZero defaultView 1 rfl rfl
    (by norm_num) (by with_unfolding_all decide)

/-- C7: a sample at angle 0 with range = meter_per_pixel * k (k a
positive integer) maps to the pixel whose horizontal coordinate is
center.x and whose vertical offset below center is exactly k pixels
(the truncation is exact because the scaled value is an integer). -/
theorem metric_scale_round_trip (tg : Trig) (vc : ViewConfig) (k : ℕ)
    (h1 : tg.cos 0 = 1) (h2 : tg.sin 0 = 0) (_hk : 0 < k)
    (hm : 0 < vc.meter_per_pixel) :
    pixelOf tg vc 0 (vc.meter_per_pixel * (k : ℚ)) =
      ((center vc).1, (center vc).2 + (k : ℤ)) ∧
    (pixelOf tg vc 0 (vc.meter_per_pixel * (k : ℚ))).2 - (center vc).2 =
      (k : ℤ) := by
  have hq : vc.meter_per_pixel * (k : ℚ) / vc.meter_per_pixel = (k : ℚ) :=
    mul_div_cancel_left₀ _ (ne_of_gt hm)
  have hcast : ((center vc).2 : ℚ) + (k : ℚ) =
      (((center vc).2 + (k : ℤ) : ℤ) : ℚ) := by
    push_cast
    ring
  have key : pixelOf tg vc 0 (vc.meter_per_pixel * (k : ℚ)) =
      ((center vc).1, (center vc).2 + (k : ℤ)) := by
    simp only [pixelOf, h1, h2, mul_zero, mul_one, zero_div, add_zero,
      neg_div, sub_neg_eq_add, ratTrunc_intCast, hq]
    rw [hcast, ratTrunc_intCast]
  refine ⟨key, ?_⟩
  rw [key]
  omega

/-- C7 witness: at the default view (meter_per_pixel = 0.02) and k = 3,
the sample at angle 0 and range 0.06 m maps to pixel (250, 253): center
column, 3 pixels below center. -/
theorem metric_scale_round_trip_witness :
    pixelOf trigAtZero defaultView 0
        (defaultView.meter_per_pixel * ((3 : ℕ) : ℚ)) =
      ((center defaultView).1, (center defaultView).2 + ((3 : ℕ) : ℤ)) ∧
    (pixelOf trigAtZero defaultView 0
        (defaultView.meter_per_pixel * ((3 : ℕ) : ℚ))).2 -
      (center defaultView).2 = ((3 : ℕ) : ℤ) :=
  metric_scale_round_trip trigAtZero defaultView 3 rfl rfl
    (by decide) (by with_unfolding_all decide)

/-- C8: every frame's drawing command list starts with the same fixed
three commands whatever the message: a full white background fill of the
freshly created image (line 52: the cv::Mat is constructed anew inside
the callback, so no pixel data survives from earlier frames) and the two
black thickness-2 crosshair segments centered on ViewConfig's center
(lines 55-60); everything after those three commands is the per-sample
red discs. -/
theorem frame_fresh_background_and_fixed_crosshair (tg : Trig)
    (vc : ViewConfig) (msg msg2 : ScanMessage) :
    (renderOps tg vc msg).take 3 = (renderOps tg vc msg2).take 3 ∧
    (renderOps tg vc msg).take 3 =
      [DrawOp.fill colWhite,
       DrawOp.line ((center vc).1 - 5, (center vc).2)
                   ((center vc).1 + 5, (center vc).2) colBlack 2,
       DrawOp.line ((center vc).1, (center vc).2 - 5)
                   ((center vc).1, (center vc).2 + 5) colBlack 2] ∧
    (renderOps tg vc msg).drop 3 =
      (plottedPixels tg vc msg).map
        (fun p => DrawOp.circle p 2 colRed (-1)) := by
  have h : ∀ m : ScanMessage, (renderOps tg vc m).take 3 =
      [DrawOp.fill colWhite,
       DrawOp.line ((center vc).1 - 5, (center vc).2)
                   ((center vc).1 + 5, (center vc).2) colBlack 2,
       DrawOp.line ((center vc).1, (center vc).2 - 5)
                   ((center vc).1, (center vc).2 + 5) colBlack 2] :=
    fun m => take_three_cons _ _ _ _
  exact ⟨(h msg).trans (h msg2).symm, h msg, drop_three_cons _ _ _ _⟩

/-- C9: when the video writer failed to open, exactly one warning is
emitted at startup and recording is a permanent no-op: over any run, no
frame is ever written, while every message still gets its frame rendered
and displayed; when the writer is open, exactly one frame is written per
message. -/
theorem recording_failure_permanent_noop (tg : Trig) (vc : ViewConfig)
    (msgs : List ScanMessage) :
    startupWarnings false = 1 ∧ startupWarnings true = 0 ∧
    (runEvents tg vc false msgs).map (fun fr => countWrites fr.2) =
      List.replicate msgs.length 0 ∧
    (runEvents tg vc false msgs).map (fun fr => countDisplays fr.2) =
      List.replicate msgs.length 1 ∧
    (runEvents tg vc false msgs).map Prod.fst = msgs.map (renderOps tg vc) ∧
    (runEvents tg vc true msgs).map (fun fr => countWrites fr.2) =
      List.replicate msgs.length 1 := by
  refine ⟨rfl, rfl, ?_, ?_, ?_, ?_⟩
  · induction msgs with
    | nil => rfl
    | cons m ms ih =>
      simp only [runEvents, List.map_cons, List.length_cons,
        List.replicate_succ, List.cons.injEq]
      exact ⟨rfl, ih⟩
  · induction msgs with
    | nil => rfl
    | cons m ms ih =>
      simp only [runEvents, List.map_cons, List.length_cons,
        List.replicate_succ, List.cons.injEq]
      exact ⟨rfl, ih⟩
  · induction msgs with
    | nil => rfl
    | cons m ms ih =>
      simp only [runEvents, List.map_cons, List.cons.injEq]
      exact ⟨by trivial, ih⟩
  · induction msgs with
    | nil => rfl
    | cons m ms ih =>
      simp only [runEvents, List.map_cons, List.length_cons,
        List.replicate_succ, List.cons.injEq]
      exact ⟨rfl, ih⟩

/-- C10: the sample angle is never validated: the acceptance test of
line 72 looks only at the range, so the result of processing a sample is
unchanged under any replacement of angle_max, a sample whose range is
within [range_min, range_max] is never rejected whatever its index and
angle fields, and when its pixel is in bounds it is plotted at the angle
angle_min + i * angle_increment even if that angle exceeds angle_max. -/
theorem angle_never_validated (tg : Trig) (vc : ViewConfig)
    (msg : ScanMessage) (i : Nat) (q : ℚ) (m : ℚ)
    (hget : msg.ranges[i]? = some (FVal.val q))
    (hmin : ¬(q < msg.range_min)) (hmax : ¬(msg.range_max < q)) :
    processSample tg vc (setAngleMax msg m) i = processSample tg vc msg i ∧
    processSample tg vc msg i ≠ SampleResult.rejected ∧
    (inBounds vc (pixelOf tg vc (sampleAngle msg i) q) = true →
      processSample tg vc msg i =
        SampleResult.plotted (pixelOf tg vc (sampleAngle msg i) q)) := by
  have hrej : rejectRange msg (FVal.val q) = false := by
    simp [rejectRange, FVal.ltQ, FVal.gtQ, FVal.isnan, hmin, hmax]
  have hrej2 : rejectRange (setAngleMax msg m) (FVal.val q) = false := hrej
  have hget2 : (setAngleMax msg m).ranges[i]? = some (FVal.val q) := hget
  have hps : processSample tg vc msg i =
      if inBounds vc (pixelOf tg vc (sampleAngle msg i) q) then
        SampleResult.plotted (pixelOf tg vc (sampleAngle msg i) q)
      else SampleResult.clipped (pixelOf tg vc (sampleAngle msg i) q) := by
    unfold processSample
    rw [hget]
    simp [hrej, FVal.toQ]
  have hps2 : processSample tg vc (setAngleMax msg m) i =
      if inBounds vc (pixelOf tg vc (sampleAngle msg i) q) then
        SampleResult.plotted (pixelOf tg vc (sampleAngle msg i) q)
      else SampleResult.clipped (pixelOf tg vc (sampleAngle msg i) q) := by
    have hsa : sampleAngle (setAngleMax msg m) i = sampleAngle msg i := rfl
    unfold processSample
    rw [hget2]
    simp [hrej2, hsa, FVal.toQ]
  refine ⟨hps2.trans hps.symm, ?_, ?_⟩
  · rw [hps]
    cases hb : inBounds vc (pixelOf tg vc (sampleAngle msg i) q) <;> simp
  · intro hb
    rw [hps, hb]
    simp

/-- C10 witness: in msgAng the third sample's angle is
0 + 2 * 100 = 200 rad, far beyond angle_max = 1, yet with a valid range
of 1 m it is processed like any other sample and never rejected. -/
theorem angle_never_validated_witness :
    processSample trigAtZero defaultView (setAngleMax msgAng 42) 2 =
      processSample trigAtZero defaultView msgAng 2 ∧
    processSample trigAtZero defaultView msgAng 2 ≠ SampleResult.rejected ∧
    (inBounds defaultView
        (pixelOf trigAtZero defaultView (sampleAngle msgAng 2) 1) = true →
      processSample trigAtZero defaultView msgAng 2 =
        SampleResult.plotted
          (pixelOf trigAtZero defaultView (sampleAngle msgAng 2) 1)) :=
  angle_never_validated trigAtZero defaultView msgAng 2 1 42
    (by with_unfolding_all rfl) (by with_unfolding_all decide)
    (by with_unfolding_all decide)
